import Mathlib

/-!
Verification development for the credit-card statement document-to-facts
pipeline (PDF text extraction with password recovery, regex-cascade
financial field extraction, and the reminder/amortization engine).

The Python sources are shallowly embedded: strings are `String`/`List Char`,
Python floats are modelled as `ℚ`, a value that may be `None` is an
`Option`, code that can raise is embedded in `Except String`, and the
external collaborators (PDF library, OCR engine, natural-language date
parser) are oracles passed in as explicit parameters.  The regular
expressions of `reminder_service.py` are transcribed into a small regex AST
(`RE`) matched by a backtracking matcher with Python `re`'s leftmost,
priority-ordered semantics for the fragment the source uses (literals with
IGNORECASE, character classes, alternation, option, greedy counted
repetition, one capture group).
-/

/-! ### Character helpers (ASCII model of Python's str/char classes) -/

/-- ASCII decimal digit, the model of `\d`. -/
def isAsciiDigit (c : Char) : Bool := 48 ≤ c.toNat && c.toNat ≤ 57

/-- Python whitespace (the set `str.strip`/`\s` use): space, tab, LF, CR, VT, FF. -/
def pyIsSpace (c : Char) : Bool :=
  c.toNat = 32 || c.toNat = 9 || c.toNat = 10 || c.toNat = 13 || c.toNat = 11 || c.toNat = 12

/-- ASCII letter. -/
def isAsciiAlpha (c : Char) : Bool :=
  (65 ≤ c.toNat && c.toNat ≤ 90) || (97 ≤ c.toNat && c.toNat ≤ 122)

/-- Word character, the ASCII model of `\w` (letters, digits, underscore). -/
def isWordChar (c : Char) : Bool := isAsciiAlpha c || isAsciiDigit c || c = '_'

/-- ASCII lower-casing of one character (model of Python `str.lower` per char). -/
def lowerChar (c : Char) : Char :=
  if 65 ≤ c.toNat && c.toNat ≤ 90 then Char.ofNat (c.toNat + 32) else c

/-- ASCII upper-casing of one character (model of Python `str.upper` per char). -/
def upperChar (c : Char) : Char :=
  if 97 ≤ c.toNat && c.toNat ≤ 122 then Char.ofNat (c.toNat - 32) else c

/-- Case-insensitive character equality (re.IGNORECASE). -/
def ciEq (a b : Char) : Bool := lowerChar a = lowerChar b

/-- Case-insensitive "w is a prefix of cs". -/
def ciPrefix : List Char → List Char → Bool
  | [], _ => true
  | _ :: _, [] => false
  | a :: as, b :: bs => ciEq a b && ciPrefix as bs

/-- Python `s.strip()`: drop leading and trailing whitespace. -/
def pyStrip (cs : List Char) : List Char :=
  ((cs.dropWhile pyIsSpace).reverse.dropWhile pyIsSpace).reverse

/-- Python `s.lower()`. -/
def lowerList (cs : List Char) : List Char := cs.map lowerChar

/-- Python `s.upper()`. -/
def upperList (cs : List Char) : List Char := cs.map upperChar

/-- Python `s.capitalize()`: first character upper-cased, the rest lower-cased. -/
def pyCapitalize : List Char → List Char
  | [] => []
  | c :: rest => upperChar c :: rest.map lowerChar

/-- Python `s.split()` with no argument: split on whitespace runs, no empty parts. -/
def splitWsAux : List Char → List Char → List (List Char)
  | [], acc => if acc.isEmpty then [] else [acc.reverse]
  | c :: rest, acc =>
    if pyIsSpace c then
      if acc.isEmpty then splitWsAux rest [] else acc.reverse :: splitWsAux rest []
    else splitWsAux rest (c :: acc)

def splitWs (cs : List Char) : List (List Char) := splitWsAux cs []

/-- Model of `re.sub(r'[^\d]', '', s)`: keep only the (ASCII) digits. -/
def filterDigits (cs : List Char) : List Char := cs.filter isAsciiDigit

/-- Python `s[-n:]` for `n > 0`: the last `n` characters (the whole string when
it is shorter than `n`). -/
def lastN (n : Nat) (cs : List Char) : List Char := cs.drop (cs.length - n)

/-- Numeric value of a digit string (no sign handling, used on `\d`-only slices). -/
def digitsVal (cs : List Char) : Nat := cs.foldl (fun n c => n * 10 + (c.toNat - 48)) 0

/-- The decimal digit character of `d % 10`. -/
def digitChar (d : Nat) : Char :=
  [ '0', '1', '2', '3', '4', '5', '6', '7', '8', '9' ].getD (d % 10) '0'

/-- Fuel-driven accumulator for decimal rendering of a `Nat`. -/
def decDigitsAux : Nat → Nat → List Char → List Char
  | 0, _, acc => acc
  | fuel + 1, n, acc =>
    if n = 0 then acc else decDigitsAux fuel (n / 10) (digitChar (n % 10) :: acc)

/-- Decimal rendering of a `Nat` (model of Python `str(n)` for `n ≥ 0`). -/
def natStr (n : Nat) : List Char :=
  if n = 0 then ['0'] else decDigitsAux (n + 1) n []

/-- Left-pad with zeros to width `w` (model of `strftime`'s zero padding). -/
def zeroPad (w : Nat) (cs : List Char) : List Char :=
  List.replicate (w - cs.length) '0' ++ cs

/-- Model of Python `int(s)` restricted to the non-negative case: raises
(`Except.error`) unless `s` is a non-empty all-digit string. -/
def intE (cs : List Char) : Except String Nat :=
  if cs ≠ [] ∧ cs.all isAsciiDigit then Except.ok (digitsVal cs)
  else Except.error "invalid literal for int() with base 10"

/-- Model of `s.encode('latin-1').decode('latin-1', errors='ignore')`: the
encode step raises for a character outside latin-1, otherwise the round trip
is the identity. -/
def latin1RoundtripE (cs : List Char) : Except String (List Char) :=
  if cs.all (fun c => c.toNat < 256) then Except.ok cs
  else Except.error "UnicodeEncodeError"

/-- First-occurrence-preserving deduplication
(model of `list(dict.fromkeys(xs))`). -/
def dedupFirstAux : List (List Char) → List (List Char) → List (List Char)
  | [], _ => []
  | x :: xs, seen =>
    if seen.contains x then dedupFirstAux xs seen else x :: dedupFirstAux xs (x :: seen)

def dedupFirst (l : List (List Char)) : List (List Char) := dedupFirstAux l []

/-! ### A small regex AST and Python-`re`-faithful backtracking matcher

Only the fragment the source's patterns use is represented.  `matchRE`
enumerates the ways a regex can match a prefix of the input, in exactly
Python's backtracking priority order: alternation tries the left branch
first, `?` and counted repetition are greedy (more repetitions first), and
`searchCapture` scans start positions left to right and takes the first
position at which a match exists, returning capture group 1 of the
highest-priority match there.  Literals compare case-insensitively
(all searches in `reminder_service.py` pass `re.IGNORECASE`). -/

inductive RE : Type where
  | lit : List Char → RE
  | cls : (Char → Bool) → RE
  | seq : RE → RE → RE
  | alt : RE → RE → RE
  | opt : RE → RE
  | rep : RE → Nat → Option Nat → RE
  | grp : RE → RE

/-- Structural size of a regex, used only to compute a sufficient fuel. -/
def reSize : RE → Nat
  | .lit w => w.length + 1
  | .cls _ => 1
  | .seq a b => reSize a + reSize b + 1
  | .alt a b => reSize a + reSize b + 1
  | .opt a => reSize a + 1
  | .rep a _ _ => reSize a + 1
  | .grp a => reSize a + 1

/-- All matches of `re` against a prefix of `cs`, in Python priority order.
Each result is (remaining suffix, capture of group 1 if the group
participated).  `fuel` decreases on every recursive call; a repetition step
must consume at least one character (true of every repetition body in the
transcribed patterns), so `(reSize re + 1) * (cs.length + 2)` fuel is enough
to enumerate every match. -/
def matchRE : Nat → RE → List Char → List (List Char × Option (List Char))
  | 0, _, _ => []
  | fuel + 1, re, cs =>
    match re with
    | .lit w => if ciPrefix w cs then [(cs.drop w.length, none)] else []
    | .cls p =>
      match cs with
      | [] => []
      | c :: rest => if p c then [(rest, none)] else []
    | .seq a b =>
      (matchRE fuel a cs).flatMap (fun pr =>
        (matchRE fuel b pr.1).map (fun qr => (qr.1, pr.2.orElse (fun _ => qr.2))))
    | .alt a b => matchRE fuel a cs ++ matchRE fuel b cs
    | .opt a => matchRE fuel a cs ++ [(cs, none)]
    | .grp a =>
      (matchRE fuel a cs).map (fun pr => (pr.1, some (cs.take (cs.length - pr.1.length))))
    | .rep a lo hi =>
      let stop : List (List Char × Option (List Char)) :=
        if lo = 0 then [(cs, none)] else []
      let deeper : List (List Char × Option (List Char)) :=
        if hi = some 0 then []
        else
          (matchRE fuel a cs).flatMap (fun pr =>
            if pr.1.length < cs.length then
              (matchRE fuel (.rep a (lo - 1) (hi.map (· - 1))) pr.1).map
                (fun qr => (qr.1, pr.2.orElse (fun _ => qr.2)))
            else [])
      deeper ++ stop

/-- The match results at one start position, with sufficient fuel. -/
def matchResultsAt (re : RE) (cs : List Char) : List (List Char × Option (List Char)) :=
  matchRE ((reSize re + 1) * (cs.length + 2)) re cs

/-- Model of `re.search(pattern, text, re.IGNORECASE)` followed by
`match.group(1)`: `none` when no position matches, otherwise group 1 of the
leftmost, highest-priority match.  (In every transcribed pattern group 1
always participates in a successful match; `""` is a dead default.) -/
def searchCapture (re : RE) (s : String) : Option String :=
  let cs := s.data
  (List.range (cs.length + 1)).findSome? (fun i =>
    match matchResultsAt re (cs.drop i) with
    | [] => none
    | pr :: _ => some (String.mk ((pr.2).getD [])))

/-- Whether `re.search` would find a match at all (used where the code only
tests the match object for truthiness). -/
def searchMatches (re : RE) (s : String) : Bool :=
  ((List.range (s.data.length + 1)).findSome? (fun i =>
    match matchResultsAt re (s.data.drop i) with
    | [] => none
    | _ :: _ => some ())).isSome

/-! ### Whole-word currency search (`extract_currency_code_from_text`)

Model of `re.search(r'\bDHS\b', text, re.IGNORECASE)`: a case-insensitive
occurrence of the word bounded on both sides by a non-word character or an
end of the text. -/

/-- The word `w` matches at position `i` of `cs` with `\b` on both sides. -/
def wordMatchAt (cs : List Char) (i : Nat) (w : List Char) : Bool :=
  ciPrefix w (cs.drop i) &&
  (decide (i = 0) || !isWordChar (cs.getD (i - 1) ' ')) &&
  (decide (cs.length ≤ i + w.length) || !isWordChar (cs.getD (i + w.length) ' '))

/-- Model of `re.search(r'\b<w>\b', s, re.IGNORECASE) is not None`. -/
def containsWordCI (w : String) (s : String) : Bool :=
  (List.range (s.data.length + 1)).any (fun i => wordMatchAt s.data i w.data)

/-- `ReminderService.extract_currency_code_from_text`: `DHS` if present as a
whole word, else `AED` if present, else the default `AED`. -/
def extract_currency_code_from_text (text : String) : String :=
  if containsWordCI "DHS" text then "DHS"
  else if containsWordCI "AED" text then "AED"
  else "AED"

/-! ### The regex pattern lists of `ReminderService.__init__`

Shared pieces first; each pattern below transcribes one Python raw-string
regex, noted in a comment. -/

/-- `\d` -/
def dCls : RE := .cls isAsciiDigit

/-- `\s` -/
def sCls : RE := .cls pyIsSpace

/-- `\w` -/
def wCls : RE := .cls isWordChar

/-- `[\/\-]` -/
def dateSep : RE := .cls (fun c => c = '/' || c = '-')

/-- `\s+` -/
def sp1 : RE := .rep sCls 1 none

/-- `\s*` -/
def sp0 : RE := .rep sCls 0 none

/-- `\d+(?:\.\d{1,2})?` — the amount in the due-date patterns. -/
def amountRE : RE :=
  .seq (.rep dCls 1 none) (.opt (.seq (.lit ['.']) (.rep dCls 1 (some 2))))

/-- `(?:AED|DHS)` -/
def curRE : RE := .alt (.lit ['A', 'E', 'D']) (.lit ['D', 'H', 'S'])

/-- `\d{1,2}[\/\-]\d{1,2}[\/\-]\d{2,4}` — a numeric date. -/
def numDateRE : RE :=
  .seq (.rep dCls 1 (some 2))
    (.seq dateSep (.seq (.rep dCls 1 (some 2)) (.seq dateSep (.rep dCls 2 (some 4)))))

/-- `\w+\s+\d{1,2},?\s+\d{4}` — a month-name date such as `June 5, 2024`. -/
def wordDateRE : RE :=
  .seq (.rep wCls 1 none)
    (.seq sp1 (.seq (.rep dCls 1 (some 2))
      (.seq (.opt (.lit [','])) (.seq sp1 (.rep dCls 4 (some 4))))))

/-- Chain a list of regexes in sequence. -/
def reCat (l : List RE) : RE := l.foldr RE.seq (.lit [])

/-- `(?:AED|DHS)\s+\d+(?:\.\d{1,2})?\s+payment\s+due:?\s*(\d{1,2}[\/\-]\d{1,2}[\/\-]\d{2,4})` -/
def duePat1 : RE :=
  reCat [curRE, sp1, amountRE, sp1, .lit "payment".data, sp1, .lit "due".data,
    .opt (.lit [':']), sp0, .grp numDateRE]

/-- `(?:AED|DHS)\s+\d+(?:\.\d{1,2})?\s+due\s+date:?\s*(\d{1,2}[\/\-]\d{1,2}[\/\-]\d{2,4})` -/
def duePat2 : RE :=
  reCat [curRE, sp1, amountRE, sp1, .lit "due".data, sp1, .lit "date".data,
    .opt (.lit [':']), sp0, .grp numDateRE]

/-- `(?:AED|DHS)\s+\d+(?:\.\d{1,2})?\s+due\s+on:?\s*(\d{1,2}[\/\-]\d{1,2}[\/\-]\d{2,4})` -/
def duePat3 : RE :=
  reCat [curRE, sp1, amountRE, sp1, .lit "due".data, sp1, .lit "on".data,
    .opt (.lit [':']), sp0, .grp numDateRE]

/-- `(?:AED|DHS)\s+\d+(?:\.\d{1,2})?\s+payment\s+due\s+(\w+\s+\d{1,2},?\s+\d{4})` -/
def duePat4 : RE :=
  reCat [curRE, sp1, amountRE, sp1, .lit "payment".data, sp1, .lit "due".data,
    sp1, .grp wordDateRE]

/-- `(?:AED|DHS)\s+\d+(?:\.\d{1,2})?\s+due\s+(\w+\s+\d{1,2},?\s+\d{4})` -/
def duePat5 : RE :=
  reCat [curRE, sp1, amountRE, sp1, .lit "due".data, sp1, .grp wordDateRE]

/-- `(\d{1,2}[\/\-]\d{1,2}[\/\-]\d{2,4})\s+due\s+for\s+(?:AED|DHS)\s+\d+(?:\.\d{1,2})?` -/
def duePat6 : RE :=
  reCat [.grp numDateRE, sp1, .lit "due".data, sp1, .lit "for".data, sp1, curRE,
    sp1, amountRE]

/-- `\d+(?:\.\d{1,2})?\s+(?:AED|DHS)\s+payment\s+due:?\s*(\d{1,2}[\/\-]\d{1,2}[\/\-]\d{2,4})` -/
def duePat7 : RE :=
  reCat [amountRE, sp1, curRE, sp1, .lit "payment".data, sp1, .lit "due".data,
    .opt (.lit [':']), sp0, .grp numDateRE]

/-- `\d+(?:\.\d{1,2})?\s+(?:AED|DHS)\s+due\s+date:?\s*(\d{1,2}[\/\-]\d{1,2}[\/\-]\d{2,4})` -/
def duePat8 : RE :=
  reCat [amountRE, sp1, curRE, sp1, .lit "due".data, sp1, .lit "date".data,
    .opt (.lit [':']), sp0, .grp numDateRE]

/-- `self.due_date_patterns`, in source order. -/
def due_date_patterns : List RE :=
  [duePat1, duePat2, duePat3, duePat4, duePat5, duePat6, duePat7, duePat8]

/-- `(\d{1,3}(?:,\d{3})*(?:\.\d{2})?)` — the captured amount in the
minimum-payment and balance patterns. -/
def groupedAmountRE : RE :=
  .grp (.seq (.rep dCls 1 (some 3))
    (.seq (.rep (.seq (.lit [',']) (.rep dCls 3 (some 3))) 0 none)
      (.opt (.seq (.lit ['.']) (.rep dCls 2 (some 2))))))

/-- A labelled amount pattern with the currency prefixed:
`<label>:?\s*(?:AED|DHS)\s*(\d{1,3}(?:,\d{3})*(?:\.\d{2})?)`. -/
def labelledPrefix (label : List RE) : RE :=
  reCat (label ++ [.opt (.lit [':']), sp0, curRE, sp0, groupedAmountRE])

/-- A labelled amount pattern with the currency suffixed:
`<label>:?\s*(\d{1,3}(?:,\d{3})*(?:\.\d{2})?)\s*(?:AED|DHS)`. -/
def labelledSuffix (label : List RE) : RE :=
  reCat (label ++ [.opt (.lit [':']), sp0, groupedAmountRE, sp0, curRE])

/-- `self.minimum_payment_patterns`, in source order: the four labels
`minimum payment`, `min payment`, `minimum due`, `amount due` in
currency-prefix form, then the same four in currency-suffix form. -/
def minimum_payment_patterns : List RE :=
  [labelledPrefix [.lit "minimum".data, sp1, .lit "payment".data],
   labelledPrefix [.lit "min".data, sp1, .lit "payment".data],
   labelledPrefix [.lit "minimum".data, sp1, .lit "due".data],
   labelledPrefix [.lit "amount".data, sp1, .lit "due".data],
   labelledSuffix [.lit "minimum".data, sp1, .lit "payment".data],
   labelledSuffix [.lit "min".data, sp1, .lit "payment".data],
   labelledSuffix [.lit "minimum".data, sp1, .lit "due".data],
   labelledSuffix [.lit "amount".data, sp1, .lit "due".data]]

/-- `self.balance_patterns`, in source order: labels `current balance`,
`new balance`, `balance`, `statement balance`, prefix then suffix form. -/
def balance_patterns : List RE :=
  [labelledPrefix [.lit "current".data, sp1, .lit "balance".data],
   labelledPrefix [.lit "new".data, sp1, .lit "balance".data],
   labelledPrefix [.lit "balance".data],
   labelledPrefix [.lit "statement".data, sp1, .lit "balance".data],
   labelledSuffix [.lit "current".data, sp1, .lit "balance".data],
   labelledSuffix [.lit "new".data, sp1, .lit "balance".data],
   labelledSuffix [.lit "balance".data],
   labelledSuffix [.lit "statement".data, sp1, .lit "balance".data]]

/-! ### The field extractors of `ReminderService` -/

/-- A calendar date, the model of the `datetime` values the date parser
returns (only the date part is ever used). -/
structure YMD where
  y : Nat
  m : Nat
  d : Nat
deriving DecidableEq, Repr

/-- `extract_due_date_from_text`, generalized over the pattern list for the
loop lemmas.  `parse` is the external `dateparser.parse` collaborator
(spec §6: `parse_natural_date(string) -> date | none`).  Faithful to the
source loop: a pattern that matches textually but whose captured substring
fails to parse does NOT return — the loop continues with the next pattern. -/
def extractDueDateAux (parse : String → Option YMD) : List RE → String → Option YMD
  | [], _ => none
  | p :: ps, text =>
    match searchCapture p text with
    | some g =>
      match parse g with
      | some d => some d
      | none => extractDueDateAux parse ps text
    | none => extractDueDateAux parse ps text

/-- `ReminderService.extract_due_date_from_text`. -/
def extract_due_date_from_text (parse : String → Option YMD) (text : String) :
    Option YMD :=
  extractDueDateAux parse due_date_patterns text

/-- Strip `,` (model of `match.group(1).replace(',', '')`). -/
def removeCommas (cs : List Char) : List Char := cs.filter (fun c => c ≠ ',')

/-- Model of Python `float(s)` on the strings the grouped-amount pattern can
capture: digits with an optional `.` and fraction digits.  `none` models
`ValueError`. -/
def parseDecimal (cs : List Char) : Option ℚ :=
  match cs.span (fun c => c ≠ '.') with
  | (intPart, []) =>
    if intPart ≠ [] ∧ intPart.all isAsciiDigit then some (digitsVal intPart) else none
  | (intPart, _ :: fracPart) =>
    if intPart.all isAsciiDigit ∧ fracPart ≠ [] ∧ fracPart.all isAsciiDigit then
      some ((digitsVal intPart : ℚ) + (digitsVal fracPart : ℚ) / (10 : ℚ) ^ fracPart.length)
    else none

/-- The shared loop of `extract_minimum_payment_from_text` and
`extract_balance_from_text`: first pattern that matches wins, except that a
captured string `float()` rejects is skipped (`except ValueError: continue`). -/
def extractAmountAux : List RE → String → Option ℚ
  | [], _ => none
  | p :: ps, text =>
    match searchCapture p text with
    | some g =>
      match parseDecimal (removeCommas g.data) with
      | some v => some v
      | none => extractAmountAux ps text
    | none => extractAmountAux ps text

/-- `ReminderService.extract_minimum_payment_from_text`. -/
def extract_minimum_payment_from_text (text : String) : Option ℚ :=
  extractAmountAux minimum_payment_patterns text

/-- `ReminderService.extract_balance_from_text`. -/
def extract_balance_from_text (text : String) : Option ℚ :=
  extractAmountAux balance_patterns text

/-! ### `PDFParser.extract_birth_year`: a model of `datetime.strptime`

CPython's `strptime` compiles each format into a regex — `%Y` is exactly
`\d\d\d\d`, `%m` is `1[0-2]|0[1-9]|[1-9]`, `%d` is `3[01]|[12]\d|0[1-9]|[1-9]`
— matches it against a prefix of the string in priority order (two-digit
alternatives first), raises if unconverted data remains, then validates the
fields through the `datetime` constructor (which rejects year 0 and a day
beyond the month's length). -/

inductive FmtTok where
  | year
  | month
  | day
  | sepc : Char → FmtTok

/-- The priority-ordered ways `%d` can consume input: a two-digit value in
`01..31` first, then a single digit `1..9`. -/
def dayChoices : List Char → List (Nat × List Char)
  | c1 :: c2 :: rest =>
    (if isAsciiDigit c1 && isAsciiDigit c2 &&
        decide (1 ≤ digitsVal [c1, c2]) && decide (digitsVal [c1, c2] ≤ 31) then
      [(digitsVal [c1, c2], rest)]
    else []) ++
    (if isAsciiDigit c1 && decide (1 ≤ digitsVal [c1]) then
      [(digitsVal [c1], c2 :: rest)]
    else [])
  | [c1] => if isAsciiDigit c1 && decide (1 ≤ digitsVal [c1]) then [(digitsVal [c1], [])] else []
  | [] => []

/-- The priority-ordered ways `%m` can consume input: two digits `01..12`
first, then a single digit `1..9`. -/
def monthChoices : List Char → List (Nat × List Char)
  | c1 :: c2 :: rest =>
    (if isAsciiDigit c1 && isAsciiDigit c2 &&
        decide (1 ≤ digitsVal [c1, c2]) && decide (digitsVal [c1, c2] ≤ 12) then
      [(digitsVal [c1, c2], rest)]
    else []) ++
    (if isAsciiDigit c1 && decide (1 ≤ digitsVal [c1]) then
      [(digitsVal [c1], c2 :: rest)]
    else [])
  | [c1] => if isAsciiDigit c1 && decide (1 ≤ digitsVal [c1]) then [(digitsVal [c1], [])] else []
  | [] => []

/-- `%Y` consumes exactly four digits. -/
def yearChoices (cs : List Char) : List (Nat × List Char) :=
  if (cs.take 4).length = 4 && (cs.take 4).all isAsciiDigit then
    [(digitsVal (cs.take 4), cs.drop 4)]
  else []

/-- Run a format's token list against the input, enumerating the regex's
priority-ordered assignments of (year, month, day) with the remaining text. -/
def runFmt : List FmtTok → YMD → List Char → List (YMD × List Char)
  | [], acc, cs => [(acc, cs)]
  | FmtTok.year :: ts, acc, cs =>
    (yearChoices cs).flatMap (fun vr => runFmt ts { acc with y := vr.1 } vr.2)
  | FmtTok.month :: ts, acc, cs =>
    (monthChoices cs).flatMap (fun vr => runFmt ts { acc with m := vr.1 } vr.2)
  | FmtTok.day :: ts, acc, cs =>
    (dayChoices cs).flatMap (fun vr => runFmt ts { acc with d := vr.1 } vr.2)
  | FmtTok.sepc c :: ts, acc, cs =>
    match cs with
    | [] => []
    | c2 :: rest => if c2 = c then runFmt ts acc rest else []

/-- Length of a month, with leap-year February. -/
def daysInMonth (y m : Nat) : Nat :=
  if m = 2 then
    if y % 4 = 0 && (y % 100 ≠ 0 || y % 400 = 0) then 29 else 28
  else if m = 4 || m = 6 || m = 9 || m = 11 then 30
  else 31

/-- The `datetime(year, month, day)` constructor's validity check
(`%m`/`%d` already bound month and day to `1..12`/`1..31` in the regex). -/
def validYMD (v : YMD) : Bool :=
  1 ≤ v.y && v.y ≤ 9999 && 1 ≤ v.m && v.m ≤ 12 && 1 ≤ v.d && v.d ≤ daysInMonth v.y v.m

/-- `datetime.strptime(s, fmt)` for the nine formats of `extract_birth_year`:
the regex's first (priority) match must consume the whole string and pass
date validation, else `ValueError` (modelled `none`). -/
def strptimeYMD (fmt : List FmtTok) (s : String) : Option YMD :=
  match runFmt fmt ⟨0, 0, 0⟩ s.data with
  | [] => none
  | pr :: _ => if pr.2 = [] && validYMD pr.1 then some pr.1 else none

/-- The `formats_to_try` list of `extract_birth_year`, in source order. -/
def formats_to_try : List (List FmtTok) :=
  [[FmtTok.year, FmtTok.sepc '-', FmtTok.month, FmtTok.sepc '-', FmtTok.day],
   [FmtTok.day, FmtTok.sepc '-', FmtTok.month, FmtTok.sepc '-', FmtTok.year],
   [FmtTok.month, FmtTok.sepc '-', FmtTok.day, FmtTok.sepc '-', FmtTok.year],
   [FmtTok.year, FmtTok.sepc '/', FmtTok.month, FmtTok.sepc '/', FmtTok.day],
   [FmtTok.day, FmtTok.sepc '/', FmtTok.month, FmtTok.sepc '/', FmtTok.year],
   [FmtTok.month, FmtTok.sepc '/', FmtTok.day, FmtTok.sepc '/', FmtTok.year],
   [FmtTok.year, FmtTok.month, FmtTok.day],
   [FmtTok.day, FmtTok.month, FmtTok.year],
   [FmtTok.month, FmtTok.day, FmtTok.year]]

/-- The fallback `re.search(r'(19|20)\d{2}', dob_digits)`: leftmost
four-character match starting `19` or `20` (the input is all digits). -/
def yearMatchAt : List Char → Option (List Char)
  | a :: b :: c :: d :: _ =>
    if ((a = '1' && b = '9') || (a = '2' && b = '0')) && isAsciiDigit c && isAsciiDigit d then
      some [a, b, c, d]
    else none
  | _ => none

def searchYear : List Char → Option (List Char)
  | [] => none
  | c :: rest =>
    match yearMatchAt (c :: rest) with
    | some m => some m
    | none => searchYear rest

/-- `PDFParser.extract_birth_year`.  A missing date of birth is modelled as
the empty string (`if not dob: return None`).  The two `int(potential_year)`
calls are embedded through `intE`, so the function lives in `Except`: it is
proved below that it never actually errors. -/
def extract_birth_yearE (dob : String) : Except String (Option (List Char)) :=
  if dob.data.isEmpty then Except.ok none
  else if (filterDigits dob.data).length < 4 then Except.ok none
  else
    match formats_to_try.findSome? (fun fmt => strptimeYMD fmt dob) with
    | some parsed => Except.ok (some (natStr parsed.y))
    | none =>
      match searchYear (filterDigits dob.data) with
      | some m => Except.ok (some m)
      | none =>
        match intE ((filterDigits dob.data).take 4) with
        | Except.error e => Except.error e
        | Except.ok v =>
          if 1900 ≤ v ∧ v ≤ 2100 then Except.ok (some ((filterDigits dob.data).take 4))
          else
            match intE (lastN 4 (filterDigits dob.data)) with
            | Except.error e => Except.error e
            | Except.ok w =>
              if 1900 ≤ w ∧ w ≤ 2100 then Except.ok (some (lastN 4 (filterDigits dob.data)))
              else Except.ok none

/-! ### The customer profile and `generate_password_candidates` -/

/-- Modelled from the spec: the `Customer` record of the absent `models.py`.
Spec §3 CustomerProfile — full name, raw phone number (may contain
punctuation/spaces), free-form date-of-birth string, and the last-four digit
strings of the associated cards.  A missing field is the empty string. -/
structure Customer where
  name : String
  phone_number : String
  date_of_birth : String
  credit_cards : List String

/-- `PDFParser.generate_password_candidates`, block by block in source order.
The list is assembled exactly as the Python code appends, then filtered
(`c and c.strip()`) and deduplicated preserving first occurrences.  The
fallible primitives (`int`, `.encode('latin-1')`) keep their `Except`
embedding, so the whole generator lives in `Except String`. -/
def generate_password_candidatesE (customer : Customer) :
    Except String (List String) :=
  let name_parts := splitWs (lowerList customer.name.data)
  let full_name := name_parts.flatten
  let phone := filterDigits customer.phone_number.data
  let dob := customer.date_of_birth.data
  match extract_birth_yearE customer.date_of_birth with
  | Except.error e => Except.error e
  | Except.ok birthYear? =>
  -- `if birth_year:` — truthiness of an Optional[str]
  let byTruthy := match birthYear? with
    | some y => !y.isEmpty
    | none => false
  -- PRIORITY block: `candidates.insert(0, primary)` into the then-empty list,
  -- then the four encoding variations (utf-8 round trip is the identity).
  let block1E : Except String (List (List Char)) :=
    match birthYear? with
    | some y =>
      if !y.isEmpty && decide (4 ≤ phone.length) then
        match latin1RoundtripE (y ++ lastN 4 phone) with
        | Except.error e => Except.error e
        | Except.ok lat =>
          Except.ok [y ++ lastN 4 phone, y ++ lastN 4 phone, y ++ lastN 4 phone, lat,
            pyStrip (y ++ lastN 4 phone)]
      else Except.ok []
    | none => Except.ok []
  match block1E with
  | Except.error e => Except.error e
  | Except.ok block1 =>
  -- variations of birth year + phone combinations
  let block2 :=
    match birthYear? with
    | some y =>
      if !y.isEmpty && decide (4 ≤ phone.length) then
        [y ++ lastN 4 phone, lastN 2 y ++ lastN 4 phone,
         y ++ lastN 6 phone, y ++ lastN 8 phone]
      else []
    | none => []
  -- legacy date parsing block: only the `len(dob_digits) == 8` inner part
  -- appends anything (ddmm/ddmmyy at the outer level are computed but unused)
  let dob_digits := filterDigits dob
  let block3 :=
    if 8 ≤ dob_digits.length ∧ dob_digits.length = 8 then
      let ddmm_alt := dob_digits.take 2 ++ (dob_digits.drop 2).take 2
      let ddmmyy_alt := dob_digits.take 2 ++ (dob_digits.drop 2).take 2 ++ (dob_digits.drop 6).take 2
      match birthYear? with
      | some y => if !y.isEmpty then [y ++ ddmm_alt, y ++ ddmmyy_alt] else [[], []]
      | none => [[], []]
    else []
  -- name derived combinations
  let block4 :=
    if 4 ≤ full_name.length ∧ 8 ≤ dob_digits.length then
      let first4 := full_name.take 4
      let nlast4 := lastN 4 full_name
      let ddmm := (dob_digits.drop 6).take 2 ++ (dob_digits.drop 4).take 2
      let ddmmyy := ddmm ++ (dob_digits.drop 2).take 2
      [first4 ++ ddmmyy, first4 ++ ddmm,
       if 4 ≤ phone.length then nlast4 ++ lastN 4 phone else [],
       upperList first4 ++ ddmm, upperList first4 ++ ddmmyy]
    else []
  -- card derived combinations (every card record has card_number_last_four)
  let block5 :=
    if 8 ≤ dob_digits.length then
      customer.credit_cards.map (fun lf =>
        lf.data ++ ((dob_digits.drop 6).take 2 ++ (dob_digits.drop 4).take 2))
    else []
  -- date format variations
  let dob_formats :=
    [dob.filter (fun c => c ≠ '-'), dob.filter (fun c => c ≠ '/'),
     dob.filter (fun c => c ≠ '.')]
  let block6 := dob_formats.flatMap (fun fmt =>
    if 2 ≤ fmt.length then [fmt, lastN 2 fmt, lastN 4 fmt] else [])
  -- name variations
  let block7 := name_parts.flatMap (fun p =>
    if !p.isEmpty then [p, pyCapitalize p, upperList p] else [])
  -- phone variations
  let block8 :=
    if 4 ≤ phone.length then
      [phone, lastN 4 phone,
       if 6 ≤ phone.length then lastN 6 phone else [],
       if 8 ≤ phone.length then lastN 8 phone else []]
    else []
  -- name + date combinations
  let block9 := name_parts.flatMap (fun p =>
    if !p.isEmpty then
      dob_formats.flatMap (fun fmt =>
        if !fmt.isEmpty then
          [p ++ fmt, pyCapitalize p ++ fmt, fmt ++ p,
           if 4 ≤ fmt.length then p ++ lastN 4 fmt else [],
           if 2 ≤ fmt.length then p ++ lastN 2 fmt else []]
        else [])
    else [])
  -- name + phone combinations
  let block10 := name_parts.flatMap (fun p =>
    if !p.isEmpty && decide (4 ≤ phone.length) then
      [p ++ lastN 4 phone, pyCapitalize p ++ lastN 4 phone, lastN 4 phone ++ p]
    else [])
  -- additional birth year combinations
  let block11 :=
    if byTruthy then
      match birthYear? with
      | some y =>
        [y, lastN 2 y] ++ name_parts.flatMap (fun p =>
          if !p.isEmpty then [y ++ p, p ++ y, lastN 2 y ++ p, p ++ lastN 2 y] else [])
      | none => []
    else []
  let all := block1 ++ block2 ++ block3 ++ block4 ++ block5 ++ block6 ++ block7 ++
    block8 ++ block9 ++ block10 ++ block11
  let kept := all.filter (fun c => !c.isEmpty && !(pyStrip c).isEmpty)
  Except.ok ((dedupFirst kept).map (fun cs => String.mk cs))

/-- The candidate list as the callers see it (the generator in fact never
errors, see `generate_password_candidatesE_ok`). -/
def generate_password_candidates (customer : Customer) : List String :=
  match generate_password_candidatesE customer with
  | Except.ok l => l
  | Except.error _ => []

/-! ### `PDFParser.parse_pdf`: the extraction pipeline over collaborator oracles

The external PDF/OCR capabilities are deterministic oracles over the one
document being processed: `extractText` is the outcome of
`extract_text_with_pymupdf(content)` (its internal failures already wrapped
into an `HTTPException`, modelled `Except.error`), `ocrText` the outcome of
`extract_text_with_ocr(content)` (the pipeline consults it twice — stage 2
and the last resort — with the same bytes, hence the same outcome), and
`attempt` the per-candidate outcome of one password trial in
`try_password_protected_pdf`. -/

/-- What one password candidate trial can do, following the control flow of
`try_password_protected_pdf`: `pikepdf` rejects the password
(`PasswordError` — continue silently), opens and yields text, or fails some
other way, in which case the PyMuPDF fallback either produces text
(`otherErr (some t)`) or itself fails/finds no password needed/authentication
fails (`otherErr none` — continue). -/
inductive CandOutcome where
  | pwError
  | ok : String → CandOutcome
  | otherErr : Option String → CandOutcome

structure PdfEnv where
  contentTypeIsPdf : Bool
  extractText : Except String String
  ocrText : Except String String
  attempt : String → CandOutcome

/-- `PDFParser.try_password_protected_pdf`'s candidate loop: first candidate
that yields text with non-empty `strip()` wins; a wrong password or an
empty decryption continues silently; exhaustion returns `None`. -/
def try_password_protected_pdf (attempt : String → CandOutcome) :
    List String → Option String
  | [] => none
  | pw :: rest =>
    match attempt pw with
    | CandOutcome.pwError => try_password_protected_pdf attempt rest
    | CandOutcome.ok t =>
      if (pyStrip t.data).isEmpty then try_password_protected_pdf attempt rest
      else some t
    | CandOutcome.otherErr fb =>
      match fb with
      | some t =>
        if (pyStrip t.data).isEmpty then try_password_protected_pdf attempt rest
        else some t
      | none => try_password_protected_pdf attempt rest

/-- The terminal failure message of `parse_pdf` (an `HTTPException` whose
detail is composite: the static text records that neither text extraction
nor decryption succeeded, and `e` is the direct-extraction failure). -/
def compositeFailMsg (e : String) : String :=
  "Failed to parse PDF. Could not extract text or decrypt: " ++ e

/-- The password-recovery-then-last-resort-OCR tail of `parse_pdf` (the body
of its `except` clause), instrumented: the returned booleans record whether
OCR and credential recovery were ever invoked.  `ocrUsed` carries the flag
from the stages already run; `e` is the exception that sent control here. -/
def parsePdfRecovery (env : PdfEnv) (customer : Customer) (e : String)
    (ocrUsed : Bool) : Except String String × Bool × Bool :=
  match generate_password_candidatesE customer with
  | Except.error ge => (Except.error ge, ocrUsed, true)
  | Except.ok cands =>
    match try_password_protected_pdf env.attempt cands with
    | some t =>
      if t = "" then
        -- `if password_content:` is false for the empty string: fall to OCR
        match env.ocrText with
        | Except.ok t2 => (Except.ok t2, true, true)
        | Except.error _ => (Except.error (compositeFailMsg e), true, true)
      else (Except.ok t, ocrUsed, true)
    | none =>
      match env.ocrText with
      | Except.ok t2 => (Except.ok t2, true, true)
      | Except.error _ => (Except.error (compositeFailMsg e), true, true)

/-- `PDFParser.parse_pdf`, instrumented with (OCR invoked, credential
recovery invoked) flags.  Python exceptions escaping the function are
`Except.error` values; `HTTPException(400, "File must be a PDF")` is the
content-type precheck. -/
def parse_pdfT (env : PdfEnv) (customer : Customer) :
    Except String String × Bool × Bool :=
  if env.contentTypeIsPdf = false then
    (Except.error "File must be a PDF", false, false)
  else
    match env.extractText with
    | Except.ok t =>
      if (pyStrip t.data).isEmpty then
        match env.ocrText with
        | Except.ok t2 => (Except.ok t2, true, false)
        | Except.error e2 => parsePdfRecovery env customer e2 true
      else (Except.ok t, false, false)
    | Except.error e => parsePdfRecovery env customer e false

/-- `parse_pdf`'s result without the instrumentation. -/
def parse_pdf (env : PdfEnv) (customer : Customer) : Except String String :=
  (parse_pdfT env customer).1

/-! ### The credit-card record and `update_credit_card_info` -/

/-- Modelled from the spec: the `CreditCard` record of the absent
`models.py`, restricted to the fields the embedded services read or write.
Spec §3 FinancialFacts: optional due date, optional minimum payment,
optional balance, and (per the §9 design note replacing the `hasattr`
probe) an always-present currency code.  `apr` feeds the payoff engine. -/
structure CreditCard where
  due_date : Option String
  minimum_payment : Option ℚ
  current_balance : Option ℚ
  apr : Option ℚ
  currency_code : String
deriving DecidableEq, Repr

/-- `due_date.strftime('%Y-%m-%d')`. -/
def fmtYMDdash (d : YMD) : String :=
  String.mk (zeroPad 4 (natStr d.y) ++ '-' :: zeroPad 2 (natStr d.m) ++ '-' :: zeroPad 2 (natStr d.d))

/-- `ReminderService.update_credit_card_info` (without the `db.commit()`
side effect): each field is written only when its extraction is truthy —
`if due_date:` (a datetime is always truthy), `if minimum_payment:` and
`if current_balance:` (a float is falsy at 0.0) — and the currency code is
always stored. -/
def update_credit_card_info (parse : String → Option YMD) (card : CreditCard)
    (extracted_text : String) : CreditCard :=
  let due := extract_due_date_from_text parse extracted_text
  let mp := extract_minimum_payment_from_text extracted_text
  let bal := extract_balance_from_text extracted_text
  let cur := extract_currency_code_from_text extracted_text
  { card with
    due_date :=
      match due with
      | some d => some (fmtYMDdash d)
      | none => card.due_date,
    minimum_payment :=
      match mp with
      | some v => if v = 0 then card.minimum_payment else some v
      | none => card.minimum_payment,
    current_balance :=
      match bal with
      | some v => if v = 0 then card.current_balance else some v
      | none => card.current_balance,
    currency_code := cur }

/-! ### The amortization engine -/

/-- The loop of `_calculate_payoff_time`: `while remaining > 0 and months < 600`.
The fuel only drives the recursion; 601 units are enough for the `months`
guard to stop the loop first, so the embedding is exact. -/
def payoffLoop (payment rate : ℚ) : Nat → ℚ → Nat → Nat
  | 0, _, months => months
  | fuel + 1, remaining, months =>
    if 0 < remaining ∧ months < 600 then
      payoffLoop payment rate fuel (remaining - (payment - remaining * rate)) (months + 1)
    else months

/-- `ReminderService._calculate_payoff_time`. -/
def calculate_payoff_time (balance payment monthly_rate : ℚ) : Nat :=
  if payment ≤ balance * monthly_rate then 999
  else payoffLoop payment monthly_rate 601 balance 0

/-- A float result of the interest computations: `float('inf')`, a finite
value, or NaN (`inf - inf` in the optimization comparison). -/
inductive FloatVal where
  | inf
  | nanv
  | val : ℚ → FloatVal
deriving DecidableEq, Repr

/-- Addition of a finite float to an interest result. -/
def addFin (q : ℚ) : FloatVal → FloatVal
  | FloatVal.inf => FloatVal.inf
  | FloatVal.nanv => FloatVal.nanv
  | FloatVal.val x => FloatVal.val (q + x)

/-- Float subtraction on interest results (`inf - inf` is NaN,
`inf - finite` is `inf`; `finite - inf` does not occur here but is `-inf`,
folded into `nanv` as "not a finite value"). -/
def subFV : FloatVal → FloatVal → FloatVal
  | FloatVal.val a, FloatVal.val b => FloatVal.val (a - b)
  | FloatVal.inf, FloatVal.val _ => FloatVal.inf
  | FloatVal.inf, FloatVal.inf => FloatVal.nanv
  | _, _ => FloatVal.nanv

/-- The bare `while remaining > 0` loop of `_calculate_total_interest`.
Unlike `_calculate_payoff_time` the source has NO iteration cap here, so the
embedding is fuel-indexed: `none` means the loop is still running after
`fuel` iterations. -/
def interestLoop (payment rate : ℚ) : Nat → ℚ → ℚ → Option ℚ
  | 0, remaining, acc => if 0 < remaining then none else some acc
  | fuel + 1, remaining, acc =>
    if 0 < remaining then
      interestLoop payment rate fuel (remaining - (payment - remaining * rate))
        (acc + remaining * rate)
    else some acc

/-- `ReminderService._calculate_total_interest`, fuel-indexed: `some`
when the loop finishes within `fuel` iterations (or the no-amortization
guard returns `float('inf')` at once), `none` when it is still running. -/
def calculate_total_interest (fuel : Nat) (balance payment monthly_rate : ℚ) :
    Option FloatVal :=
  if payment ≤ balance * monthly_rate then some FloatVal.inf
  else (interestLoop payment monthly_rate fuel balance 0).map FloatVal.val

/-- The `minimum_payment_scenario` dict of `suggest_payment_optimization`. -/
structure PayoffScenario where
  months_to_payoff : Nat
  total_interest : FloatVal
  total_paid : FloatVal
deriving DecidableEq, Repr

/-- The `optimized_payment_scenario` dict. -/
structure OptimizedScenario where
  monthly_payment : ℚ
  months_to_payoff : Nat
  total_interest : FloatVal
  total_paid : FloatVal
  interest_saved : FloatVal
deriving DecidableEq, Repr

/-- The return value of `suggest_payment_optimization`: either the
`{'message': 'No balance to optimize'}` dict or the suggestions dict, whose
`minimum_payment_scenario` key is present only when the minimum payment is
positive. -/
inductive OptSuggestion where
  | noBalance
  | plan : Option PayoffScenario → OptimizedScenario → OptSuggestion
deriving DecidableEq, Repr

/-- `ReminderService.suggest_payment_optimization`.  Fuel-indexed through
`calculate_total_interest`; a `none` overall result models the Python call
still spinning in the uncapped interest loop. -/
def suggest_payment_optimization (fuel : Nat) (card : CreditCard) :
    Option OptSuggestion := do
  match card.current_balance with
  | none => return OptSuggestion.noBalance
  | some bal =>
  if bal ≤ 0 then return OptSuggestion.noBalance
  let minimum_payment := card.minimum_payment.getD 0
  let apr := match card.apr with
    | some a => if a = 0 then (1999 : ℚ) / 10000 else a
    | none => (1999 : ℚ) / 10000
  let monthly_rate := apr / 12
  let minScenario? ←
    if 0 < minimum_payment then do
      let im ← calculate_total_interest fuel bal minimum_payment monthly_rate
      let mm := calculate_payoff_time bal minimum_payment monthly_rate
      pure (some (PayoffScenario.mk mm im (addFin bal im)))
    else pure none
  let optimized_payment := max (minimum_payment * 2) 100
  let io ← calculate_total_interest fuel bal optimized_payment monthly_rate
  let mo := calculate_payoff_time bal optimized_payment monthly_rate
  let saved :=
    match minScenario? with
    | some s => subFV s.total_interest io
    | none => FloatVal.val 0
  return OptSuggestion.plan minScenario?
    (OptimizedScenario.mk optimized_payment mo io (addFin bal io) saved)

/-- `ReminderService._calculate_urgency`. -/
def calculate_urgency (days_until_due : Int) : String :=
  if days_until_due ≤ 1 then "critical"
  else if days_until_due ≤ 3 then "high"
  else if days_until_due ≤ 7 then "medium"
  else "low"

/-- Closed form of the remaining balance in `_calculate_total_interest`'s
uncapped loop at the C3 failing input (balance 1000, payment 1.000001,
monthly rate 0.001): after `k` iterations the remaining balance equals
`1000001/1000 − (1/1000)·(1001/1000)^k`, which stays positive for more than
600 iterations (the loop in fact runs for 602... ≈13816 iterations). -/
def c3rem (k : Nat) : ℚ := 1000001 / 1000 - (1 / 1000) * (1001 / 1000) ^ k

/-! ## Helper lemmas -/

/-- A case-insensitive prefix of a nonempty word needs a nonempty text. -/
theorem ciPrefix_ne_nil {a : Char} {as bs : List Char}
    (h : ciPrefix (a :: as) bs = true) : bs ≠ [] := by
  cases bs with
  | nil => simp [ciPrefix] at h
  | cons b bs => simp

/-- The scanning search agrees with the existential statement of a
whole-word occurrence (for a nonempty word). -/
theorem containsWordCI_iff (w s : String) (hw : w.data ≠ []) :
    containsWordCI w s = true ↔ ∃ i, wordMatchAt s.data i w.data = true := by
  unfold containsWordCI
  rw [List.any_eq_true]
  constructor
  · rintro ⟨i, _, h⟩
    exact ⟨i, h⟩
  · rintro ⟨i, h⟩
    refine ⟨i, ?_, h⟩
    rw [List.mem_range]
    have hpre : ciPrefix w.data (s.data.drop i) = true := by
      have := h
      unfold wordMatchAt at this
      exact (Bool.and_eq_true _ _ |>.mp ((Bool.and_eq_true _ _ |>.mp this).1)).1
    cases hwd : w.data with
    | nil => exact absurd hwd hw
    | cons a as =>
      rw [hwd] at hpre
      have hne := ciPrefix_ne_nil hpre
      have : ¬ s.data.length ≤ i := fun hle => hne (List.drop_eq_nil_iff.mpr hle)
      omega

/-! ## C9: currency extraction precedence -/

/-- C9: for every input text, currency extraction returns `DHS` when the text
contains a whole-word (case-insensitive) occurrence of `DHS` — even when
`AED` also appears — returns `AED` when `AED` occurs and `DHS` does not, and
defaults to `AED` when neither occurs. -/
theorem c9_currency_precedence (text : String) :
    ((∃ i, wordMatchAt text.data i "DHS".data = true) →
        extract_currency_code_from_text text = "DHS") ∧
    ((∃ i, wordMatchAt text.data i "AED".data = true) ∧
        ¬(∃ i, wordMatchAt text.data i "DHS".data = true) →
        extract_currency_code_from_text text = "AED") ∧
    (¬(∃ i, wordMatchAt text.data i "AED".data = true) ∧
        ¬(∃ i, wordMatchAt text.data i "DHS".data = true) →
        extract_currency_code_from_text text = "AED") := by
  have hDHS := containsWordCI_iff "DHS" text (by decide)
  have hAED := containsWordCI_iff "AED" text (by decide)
  refine ⟨?_, ?_, ?_⟩
  · intro h
    unfold extract_currency_code_from_text
    rw [if_pos (hDHS.mpr h)]
  · rintro ⟨hA, hD⟩
    unfold extract_currency_code_from_text
    rw [if_neg (fun hc => hD (hDHS.mp hc)), if_pos (hAED.mpr hA)]
  · rintro ⟨hA, hD⟩
    unfold extract_currency_code_from_text
    rw [if_neg (fun hc => hD (hDHS.mp hc)), if_neg (fun hc => hA (hAED.mp hc))]

/-- C9 witness: on `"pay DHS now"` the whole-word occurrence at index 4
forces the result `DHS`. -/
theorem c9_witness : extract_currency_code_from_text "pay DHS now" = "DHS" :=
  (c9_currency_precedence "pay DHS now").1 ⟨4, by decide⟩

/-! ## C6 and C10: update_credit_card_info's write guards -/

/-- C6: updating a card's financial facts from extracted text never clears a
previously stored field — when the extraction of the due date, minimum
payment or balance finds nothing, that stored field is left unchanged. -/
theorem c6_update_preserves_on_miss (parse : String → Option YMD)
    (card : CreditCard) (text : String) :
    (extract_due_date_from_text parse text = none →
        (update_credit_card_info parse card text).due_date = card.due_date) ∧
    (extract_minimum_payment_from_text text = none →
        (update_credit_card_info parse card text).minimum_payment = card.minimum_payment) ∧
    (extract_balance_from_text text = none →
        (update_credit_card_info parse card text).current_balance = card.current_balance) := by
  refine ⟨fun h => ?_, fun h => ?_, fun h => ?_⟩ <;>
    simp [update_credit_card_info, h]

/-- C6 witness: on the text `"hello"` no fact matches and a fully populated
card keeps all three stored fields. -/
theorem c6_witness :
    (update_credit_card_info (fun _ => none)
        (CreditCard.mk (some "2024-01-01") (some 5) (some 10) none "AED") "hello").due_date =
      some "2024-01-01" ∧
    (update_credit_card_info (fun _ => none)
        (CreditCard.mk (some "2024-01-01") (some 5) (some 10) none "AED") "hello").minimum_payment =
      some 5 ∧
    (update_credit_card_info (fun _ => none)
        (CreditCard.mk (some "2024-01-01") (some 5) (some 10) none "AED") "hello").current_balance =
      some 10 := by
  have h := c6_update_preserves_on_miss (fun _ => none)
    (CreditCard.mk (some "2024-01-01") (some 5) (some 10) none "AED") "hello"
  exact ⟨h.1 (by decide), h.2.1 (by decide), h.2.2 (by decide)⟩

/-- C10: an extracted minimum payment or balance equal to exactly 0 is
treated like a miss — the zero is never written onto the card record (the
update is guarded by Python truthiness, not by presence). -/
theorem c10_zero_amount_not_written (parse : String → Option YMD)
    (card : CreditCard) (text : String) :
    (extract_minimum_payment_from_text text = some 0 →
        (update_credit_card_info parse card text).minimum_payment = card.minimum_payment) ∧
    (extract_balance_from_text text = some 0 →
        (update_credit_card_info parse card text).current_balance = card.current_balance) := by
  refine ⟨fun h => ?_, fun h => ?_⟩ <;> simp [update_credit_card_info, h]

/-- C10 witness: `"minimum payment: AED 0 balance: AED 0"` extracts the
amount 0 for both fields, and neither stored value is overwritten. -/
theorem c10_witness :
    (update_credit_card_info (fun _ => none)
        (CreditCard.mk none (some 5) (some 10) none "AED")
        "minimum payment: AED 0 balance: AED 0").minimum_payment = some 5 ∧
    (update_credit_card_info (fun _ => none)
        (CreditCard.mk none (some 5) (some 10) none "AED")
        "minimum payment: AED 0 balance: AED 0").current_balance = some 10 := by
  have h := c10_zero_amount_not_written (fun _ => none)
    (CreditCard.mk none (some 5) (some 10) none "AED")
    "minimum payment: AED 0 balance: AED 0"
  exact ⟨h.1 (by decide), h.2 (by decide)⟩

/-! ## C1: a matched-but-unparsable due date is NOT a hard miss -/

/-- The extraction loop returns `none` exactly when every pattern that
matches textually has a captured substring the date parser rejects —
equivalently, a matched-but-unparsable capture falls through to the
subsequent patterns instead of ending the call. -/
theorem extractDueDateAux_eq_none_iff (parse : String → Option YMD)
    (pats : List RE) (text : String) :
    extractDueDateAux parse pats text = none ↔
      ∀ p ∈ pats, ∀ g, searchCapture p text = some g → parse g = none := by
  induction pats with
  | nil => simp [extractDueDateAux]
  | cons p ps ih =>
    simp only [extractDueDateAux, List.forall_mem_cons]
    cases hs : searchCapture p text with
    | none =>
      simp only [hs]
      constructor
      · intro h
        exact ⟨fun g hg => by simp at hg, (ih.mp h)⟩
      · intro h
        exact ih.mpr h.2
    | some g =>
      cases hp : parse g with
      | some d =>
        simp only [hs, hp]
        constructor
        · intro h
          exact absurd h (by simp)
        · intro h
          have := h.1 g rfl
          rw [hp] at this
          exact absurd this (by simp)
      | none =>
        simp only [hs, hp]
        constructor
        · intro h
          refine ⟨fun g2 hg2 => ?_, ih.mp h⟩
          obtain rfl : g = g2 := by injection hg2
          exact hp
        · intro h
          exact ih.mpr h.2

/-- C1 counterexample: in
`"AED 1 payment due: 99/99/99 2/2/2022 due for AED 3"`, the first pattern of
the ordered list matches textually and captures `"99/99/99"`, which the date
parser rejects — yet the extraction does NOT return absent: the sixth
pattern is still tried and yields the parsed date 2022-02-02.  This refutes
the claim that a matched-but-unparsable date is a hard miss for the call. -/
theorem c1_matched_unparsable_still_extracts :
    duePat1 ∈ due_date_patterns ∧
    searchCapture duePat1 "AED 1 payment due: 99/99/99 2/2/2022 due for AED 3" =
      some "99/99/99" ∧
    (fun s => if s = "2/2/2022" then some (YMD.mk 2022 2 2) else none) "99/99/99" = none ∧
    extract_due_date_from_text
        (fun s => if s = "2/2/2022" then some (YMD.mk 2022 2 2) else none)
        "AED 1 payment due: 99/99/99 2/2/2022 due for AED 3" =
      some (YMD.mk 2022 2 2) := by
  refine ⟨by simp [due_date_patterns], by decide, by decide, by decide⟩

/-- C1 as amended: the due-date extraction returns absent if and only if
every pattern of the ordered list either fails to match or captures a
substring the date parser rejects; a matched-but-unparsable date therefore
falls through to the subsequent patterns rather than ending the call. -/
theorem c1_absent_iff_all_matches_unparsable (parse : String → Option YMD)
    (text : String) :
    extract_due_date_from_text parse text = none ↔
      ∀ p ∈ due_date_patterns, ∀ g, searchCapture p text = some g → parse g = none :=
  extractDueDateAux_eq_none_iff parse due_date_patterns text

/-- C1 amended-claim witness: with a parser that rejects everything, the
extraction on the counterexample text is absent. -/
theorem c1_amended_witness :
    extract_due_date_from_text (fun _ => none)
      "AED 1 payment due: 99/99/99 2/2/2022 due for AED 3" = none :=
  (c1_absent_iff_all_matches_unparsable (fun _ => none) _).mpr
    (fun _ _ _ _ => rfl)

/-! ## C3: the total-interest loop has no iteration cap -/

theorem c3rem_zero : c3rem 0 = 1000 := by norm_num [c3rem]

theorem c3rem_succ (k : Nat) :
    c3rem (k + 1) = c3rem k - (1000001 / 1000000 - c3rem k * (1 / 1000)) := by
  simp only [c3rem, pow_succ]
  ring

theorem c3pow_bound : ((1001 : ℚ) / 1000) ^ 601 < 1000001 := by
  rw [div_pow, div_lt_iff₀ (by positivity)]
  norm_num

theorem c3rem_pos (k : Nat) (hk : k ≤ 601) : 0 < c3rem k := by
  unfold c3rem
  have h1 : ((1001 : ℚ) / 1000) ^ k ≤ ((1001 : ℚ) / 1000) ^ 601 :=
    pow_le_pow_right₀ (by norm_num) hk
  have h2 := c3pow_bound
  linarith

theorem c3loop_none :
    ∀ n k acc, k + n ≤ 601 →
      interestLoop (1000001 / 1000000) (1 / 1000) n (c3rem k) acc = none := by
  intro n
  induction n with
  | zero =>
    intro k acc h
    simp [interestLoop, c3rem_pos k (by omega)]
  | succ n ih =>
    intro k acc h
    unfold interestLoop
    rw [if_pos (c3rem_pos k (by omega)),
      show c3rem k - (1000001 / 1000000 - c3rem k * (1 / 1000)) = c3rem (k + 1) from
        (c3rem_succ k).symm]
    exact ih (k + 1) _ (by omega)

/-- C3 (the code-side evaluation of the bug): at balance 1000, payment
1.000001 and monthly rate 0.001 the no-amortization guard does not fire
(payment exceeds the monthly interest 1), yet `_calculate_total_interest`'s
bare `while remaining > 0` loop is still running after 600 iterations — the
source has no 600-month cap in this computation, contradicting the claim
that the total-interest computation finishes within the hard cap. -/
theorem c3_total_interest_unfinished_after_cap :
    ¬((1000001 : ℚ) / 1000000 ≤ 1000 * (1 / 1000)) ∧
    calculate_total_interest 600 1000 (1000001 / 1000000) (1 / 1000) = none := by
  refine ⟨by norm_num, ?_⟩
  unfold calculate_total_interest
  rw [if_neg (by norm_num)]
  have h := c3loop_none 600 0 0 (by omega)
  rw [c3rem_zero] at h
  rw [h]
  rfl

/-! ## C5: no minimum payment means no interest-saved comparison -/

/-- C5: for a card whose minimum payment is absent or zero, the
payment-optimization suggestion carries no minimum-payment baseline scenario
and its `interest_saved` figure is the fixed fallback 0 — never a saved
amount computed against the undefined minimum-payment baseline.  (The other
possible outcomes: the no-balance message when there is no positive balance,
and `none` when the uncapped interest loop outruns the fuel.) -/
theorem c5_no_minimum_no_interest_saved (fuel : Nat) (card : CreditCard)
    (hmin : card.minimum_payment = none ∨ card.minimum_payment = some 0) :
    suggest_payment_optimization fuel card = some OptSuggestion.noBalance ∨
    suggest_payment_optimization fuel card = none ∨
    ∃ o, suggest_payment_optimization fuel card = some (OptSuggestion.plan none o) ∧
      o.interest_saved = FloatVal.val 0 := by
  have hgetD : card.minimum_payment.getD 0 = 0 := by
    rcases hmin with h | h <;> simp [h]
  cases hbal : card.current_balance with
  | none => left; simp [suggest_payment_optimization, hbal]
  | some bal =>
    by_cases hb : bal ≤ 0
    · left
      simp [suggest_payment_optimization, hbal, hb]
    · set apr := match card.apr with
        | some a => if a = 0 then (1999 : ℚ) / 10000 else a
        | none => (1999 : ℚ) / 10000 with hapr
      have hmax : max ((0 : ℚ) * 2) 100 = 100 := by norm_num
      cases hio : calculate_total_interest fuel bal 100 (apr / 12) with
      | none =>
        right; left
        simp [suggest_payment_optimization, hbal, hb, hgetD, ← hapr, hmax, hio]
      | some io =>
        right; right
        refine ⟨OptimizedScenario.mk 100
          (calculate_payoff_time bal 100 (apr / 12)) io
          (addFin bal io) (FloatVal.val 0), ?_, rfl⟩
        simp [suggest_payment_optimization, hbal, hb, hgetD, ← hapr, hmax, hio]

/-! ## Digit-string lemmas for the password generator -/

theorem isDigit_not_space {c : Char} (h : isAsciiDigit c = true) :
    pyIsSpace c = false := by
  simp only [isAsciiDigit, Bool.and_eq_true, decide_eq_true_eq] at h
  simp only [pyIsSpace, Bool.or_eq_false_iff, decide_eq_false_iff_not]
  omega

theorem filterDigits_all (cs : List Char) :
    (filterDigits cs).all isAsciiDigit = true := by
  simp only [filterDigits, List.all_eq_true, List.mem_filter]
  exact fun x hx => hx.2

theorem all_of_sublist {l1 l2 : List Char} (hs : l1.Sublist l2)
    (h : l2.all isAsciiDigit = true) : l1.all isAsciiDigit = true := by
  simp only [List.all_eq_true] at h ⊢
  exact fun x hx => h x (hs.subset hx)

theorem dropWhile_eq_self_of_no_space {cs : List Char}
    (h : ∀ c ∈ cs, pyIsSpace c = false) : cs.dropWhile pyIsSpace = cs := by
  cases cs with
  | nil => rfl
  | cons c rest => simp [List.dropWhile_cons, h c (by simp)]

/-- Stripping whitespace from an all-digit string is the identity. -/
theorem pyStrip_of_digits {cs : List Char} (h : cs.all isAsciiDigit = true) :
    pyStrip cs = cs := by
  simp only [List.all_eq_true] at h
  unfold pyStrip
  rw [dropWhile_eq_self_of_no_space (fun c hc => isDigit_not_space (h c hc)),
    dropWhile_eq_self_of_no_space (fun c hc =>
      isDigit_not_space (h c (List.mem_reverse.mp hc))),
    List.reverse_reverse]

theorem digit_lt_256 {c : Char} (h : isAsciiDigit c = true) : c.toNat < 256 := by
  simp only [isAsciiDigit, Bool.and_eq_true, decide_eq_true_eq] at h
  omega

theorem latin1_ok_of_digits {cs : List Char} (h : cs.all isAsciiDigit = true) :
    latin1RoundtripE cs = Except.ok cs := by
  unfold latin1RoundtripE
  rw [if_pos]
  simp only [List.all_eq_true, decide_eq_true_eq] at h ⊢
  exact fun c hc => digit_lt_256 (h c hc)

theorem intE_ok_of_digits {cs : List Char} (hne : cs ≠ [])
    (h : cs.all isAsciiDigit = true) : intE cs = Except.ok (digitsVal cs) := by
  unfold intE
  rw [if_pos ⟨hne, h⟩]

theorem digitChar_digit (d : Nat) : isAsciiDigit (digitChar d) = true := by
  unfold digitChar
  have h : d % 10 < 10 := Nat.mod_lt _ (by omega)
  set k := d % 10 with hk
  interval_cases k <;> decide

theorem decDigitsAux_all (fuel : Nat) :
    ∀ (n : Nat) (acc : List Char), acc.all isAsciiDigit = true →
      (decDigitsAux fuel n acc).all isAsciiDigit = true := by
  induction fuel with
  | zero => intro n acc h; exact h
  | succ f ih =>
    intro n acc h
    unfold decDigitsAux
    split
    · exact h
    · exact ih _ _ (by simp [digitChar_digit, h])

theorem decDigitsAux_length (fuel : Nat) :
    ∀ (n : Nat) (acc : List Char), acc.length ≤ (decDigitsAux fuel n acc).length := by
  induction fuel with
  | zero => intro n acc; simp [decDigitsAux]
  | succ f ih =>
    intro n acc
    unfold decDigitsAux
    split
    · exact Nat.le_refl _
    · exact Nat.le_trans (by simp) (ih (n / 10) (digitChar (n % 10) :: acc))

theorem natStr_all (n : Nat) : (natStr n).all isAsciiDigit = true := by
  unfold natStr
  split
  · decide
  · exact decDigitsAux_all _ _ [] rfl

theorem natStr_ne_nil (n : Nat) : natStr n ≠ [] := by
  unfold natStr
  split
  · simp
  · next h =>
    show decDigitsAux (n + 1) n [] ≠ []
    unfold decDigitsAux
    rw [if_neg h]
    have := decDigitsAux_length n (n / 10) (digitChar (n % 10) :: [])
    intro hnil
    rw [hnil] at this
    simp at this

theorem yearMatchAt_digits {cs m : List Char} (h : yearMatchAt cs = some m) :
    m ≠ [] ∧ m.all isAsciiDigit = true := by
  unfold yearMatchAt at h
  split at h
  · next a b c d rest =>
    split at h
    · next hcond =>
      injection h with h
      subst h
      simp only [Bool.and_eq_true, Bool.or_eq_true, decide_eq_true_eq] at hcond
      obtain ⟨⟨h12 | h12, hc⟩, hd⟩ := hcond <;>
        · obtain ⟨ha, hb⟩ := h12
          subst ha hb
          exact ⟨by simp, by simp [List.all_cons, hc, hd]; decide⟩
    · exact absurd h (by simp)
  · exact absurd h (by simp)

theorem searchYear_digits {cs m : List Char} (h : searchYear cs = some m) :
    m ≠ [] ∧ m.all isAsciiDigit = true := by
  induction cs with
  | nil => simp [searchYear] at h
  | cons c rest ih =>
    unfold searchYear at h
    cases hy : yearMatchAt (c :: rest) with
    | some m2 =>
      rw [hy] at h
      injection h with h
      subst h
      exact yearMatchAt_digits hy
    | none =>
      rw [hy] at h
      exact ih h

theorem take4_ne_nil {cs : List Char} (h : ¬ cs.length < 4) : cs.take 4 ≠ [] := by
  have hlen : (cs.take 4).length = 4 := by rw [List.length_take]; omega
  intro hnil
  rw [hnil] at hlen
  simp at hlen

theorem lastN4_ne_nil {cs : List Char} (h : ¬ cs.length < 4) : lastN 4 cs ≠ [] := by
  have hlen : (lastN 4 cs).length = 4 := by
    simp only [lastN, List.length_drop]
    omega
  intro hnil
  rw [hnil] at hlen
  simp at hlen

/-- `extract_birth_year` never raises: both `int()` calls happen on non-empty
all-digit slices of the digit-filtered date string. -/
theorem extract_birth_yearE_ok (dob : String) :
    ∃ o, extract_birth_yearE dob = Except.ok o := by
  unfold extract_birth_yearE
  split
  · exact ⟨none, rfl⟩
  split
  · exact ⟨none, rfl⟩
  next hlen =>
  split
  · next parsed _ => exact ⟨some (natStr parsed.y), rfl⟩
  split
  · next m _ => exact ⟨some m, rfl⟩
  simp only [intE_ok_of_digits (take4_ne_nil hlen)
    (all_of_sublist (List.take_sublist _ _) (filterDigits_all _)),
    intE_ok_of_digits (lastN4_ne_nil hlen)
    (all_of_sublist (List.drop_sublist _ _) (filterDigits_all _))]
  split
  · exact ⟨some ((filterDigits dob.data).take 4), rfl⟩
  split
  · exact ⟨some (lastN 4 (filterDigits dob.data)), rfl⟩
  · exact ⟨none, rfl⟩

/-- Whatever birth year `extract_birth_year` finds is a non-empty all-digit
string. -/
theorem extract_birth_yearE_digits {dob : String} {y : List Char}
    (h : extract_birth_yearE dob = Except.ok (some y)) :
    y ≠ [] ∧ y.all isAsciiDigit = true := by
  unfold extract_birth_yearE at h
  split at h
  · simp at h
  split at h
  · simp at h
  next hlen =>
  split at h
  · next parsed _ =>
    simp only [Except.ok.injEq, Option.some.injEq] at h
    rw [← h]
    exact ⟨natStr_ne_nil _, natStr_all _⟩
  split at h
  · next m hm =>
    simp only [Except.ok.injEq, Option.some.injEq] at h
    rw [← h]
    exact searchYear_digits hm
  simp only [intE_ok_of_digits (take4_ne_nil hlen)
    (all_of_sublist (List.take_sublist _ _) (filterDigits_all _)),
    intE_ok_of_digits (lastN4_ne_nil hlen)
    (all_of_sublist (List.drop_sublist _ _) (filterDigits_all _))] at h
  split at h
  · simp only [Except.ok.injEq, Option.some.injEq] at h
    rw [← h]
    exact ⟨take4_ne_nil hlen,
      all_of_sublist (List.take_sublist _ _) (filterDigits_all _)⟩
  split at h
  · simp only [Except.ok.injEq, Option.some.injEq] at h
    rw [← h]
    exact ⟨lastN4_ne_nil hlen,
      all_of_sublist (List.drop_sublist _ _) (filterDigits_all _)⟩
  · simp at h

/-- C4 (as a shared helper): the candidate generator never raises — on any
profile, including malformed ones, the only fallible steps (the `int()`
calls inside `extract_birth_year` and the latin-1 encode of the primary
candidate) are applied to non-empty all-digit strings. -/
theorem generate_password_candidatesE_ok (customer : Customer) :
    ∃ l, generate_password_candidatesE customer = Except.ok l := by
  obtain ⟨o, ho⟩ := extract_birth_yearE_ok customer.date_of_birth
  unfold generate_password_candidatesE
  simp only [ho]
  cases o with
  | none => exact ⟨_, rfl⟩
  | some y =>
    have hyd := extract_birth_yearE_digits ho
    have hall : (y ++ lastN 4 (filterDigits customer.phone_number.data)).all
        isAsciiDigit = true := by
      rw [List.all_append]
      exact Bool.and_eq_true _ _ |>.mpr
        ⟨hyd.2, all_of_sublist (List.drop_sublist _ _) (filterDigits_all _)⟩
    by_cases hcond :
        (!y.isEmpty && decide (4 ≤ (filterDigits customer.phone_number.data).length)) = true
    · simp only [hcond, latin1_ok_of_digits hall, if_true]
      exact ⟨_, rfl⟩
    · simp only [Bool.not_eq_true] at hcond
      simp only [hcond, Bool.false_eq_true, if_false]
      exact ⟨_, rfl⟩

/-! ## C4: the generator never throws, degrading on malformed profiles -/

/-- C4: for every customer profile — malformed ones (missing phone,
unparsable date of birth, empty name, all modelled as empty strings)
included — the password candidate generator never raises: it returns a
candidate list.  The two closed conjuncts exhibit the degradation: with
every prerequisite absent the computable remainder is the empty list, and
with only a name present exactly the name-rule candidates survive. -/
theorem c4_generator_never_throws :
    (∀ customer : Customer,
      ∃ candidates, generate_password_candidatesE customer = Except.ok candidates) ∧
    generate_password_candidatesE (Customer.mk "" "" "" []) = Except.ok [] ∧
    generate_password_candidatesE (Customer.mk "Jo" "" "" []) =
      Except.ok ["jo", "Jo", "JO"] := by
  refine ⟨fun customer => generate_password_candidatesE_ok customer, rfl, rfl⟩

/-! ## C8: the birth-year + phone-suffix candidate is first -/

/-- Head of the filter-dedup-map tail of the generator, when the first
assembled candidate passes the `c and c.strip()` filter. -/
theorem head_of_pipeline (x : List Char) (l : List (List Char))
    (hx : (!x.isEmpty && !(pyStrip x).isEmpty) = true) :
    ((dedupFirst ((x :: l).filter (fun c => !c.isEmpty && !(pyStrip c).isEmpty))).map
      (fun cs => String.mk cs)).head? = some (String.mk x) := by
  simp only [List.filter_cons, hx, if_true]
  simp [dedupFirst, dedupFirstAux]

/-- C8: whenever a birth year is derivable and the phone number has at least
4 digits, the birth-year + last-4-phone-digits candidate sits at index 0 of
the generated list; and for the profile with date of birth `15/03/1980` and
phone `050 123 4567` the list contains `19804567`. -/
theorem c8_primary_candidate_first :
    (∀ (customer : Customer) (y : List Char),
      extract_birth_yearE customer.date_of_birth = Except.ok (some y) →
      4 ≤ (filterDigits customer.phone_number.data).length →
      (generate_password_candidates customer).head? =
        some (String.mk (y ++ lastN 4 (filterDigits customer.phone_number.data)))) ∧
    "19804567" ∈ generate_password_candidates
      (Customer.mk "John Doe" "050 123 4567" "15/03/1980" []) := by
  constructor
  · intro customer y hby hphone
    have hyd := extract_birth_yearE_digits hby
    have hlast : (lastN 4 (filterDigits customer.phone_number.data)).all
        isAsciiDigit = true :=
      all_of_sublist (List.drop_sublist _ _) (filterDigits_all _)
    have hall : (y ++ lastN 4 (filterDigits customer.phone_number.data)).all
        isAsciiDigit = true := by
      rw [List.all_append]
      exact Bool.and_eq_true _ _ |>.mpr ⟨hyd.2, hlast⟩
    have hyempty : y.isEmpty = false := by
      cases hy : y.isEmpty
      · rfl
      · exact absurd (List.isEmpty_iff.mp hy) hyd.1
    have hcond :
        (!y.isEmpty && decide (4 ≤ (filterDigits customer.phone_number.data).length)) =
          true := by
      simp [hyempty, hphone]
    have hne : (y ++ lastN 4 (filterDigits customer.phone_number.data)).isEmpty = false := by
      cases hap : (y ++ lastN 4 (filterDigits customer.phone_number.data)).isEmpty
      · rfl
      · have := List.isEmpty_iff.mp hap
        rw [List.append_eq_nil] at this
        exact absurd this.1 hyd.1
    have hkeep :
        (!(y ++ lastN 4 (filterDigits customer.phone_number.data)).isEmpty &&
          !(pyStrip (y ++ lastN 4 (filterDigits customer.phone_number.data))).isEmpty) =
          true := by
      rw [pyStrip_of_digits hall]
      simp [hne]
    unfold generate_password_candidates generate_password_candidatesE
    simp only [hby, hcond, latin1_ok_of_digits hall, if_true,
      pyStrip_of_digits hall]
    exact head_of_pipeline _ _ hkeep
  · decide

/-- C8 witness: the universal part applied at the John Doe test profile —
the primary candidate `19804567` is at index 0. -/
theorem c8_witness :
    (generate_password_candidates
      (Customer.mk "John Doe" "050 123 4567" "15/03/1980" [])).head? =
      some "19804567" := by
  have h := c8_primary_candidate_first.1
    (Customer.mk "John Doe" "050 123 4567" "15/03/1980" [])
    ['1', '9', '8', '0'] rfl (by decide)
  simpa using h

/-! ## C2 and C7: the extraction pipeline's boundary -/

/-- When the recovery tail of `parse_pdf` fails, the failure is the
composite message and every stage failed: candidate trials yielded nothing
usable and the last-resort OCR errored. -/
theorem parsePdfRecovery_error {env : PdfEnv} {customer : Customer}
    {e msg : String} {u : Bool} {cands : List String}
    (hcands : generate_password_candidatesE customer = Except.ok cands)
    (h : (parsePdfRecovery env customer e u).1 = Except.error msg) :
    msg = compositeFailMsg e ∧
    (try_password_protected_pdf env.attempt cands = none ∨
      try_password_protected_pdf env.attempt cands = some "") ∧
    ∃ e2, env.ocrText = Except.error e2 := by
  unfold parsePdfRecovery at h
  simp only [hcands] at h
  cases htry : try_password_protected_pdf env.attempt cands with
  | some t =>
    rw [htry] at h
    simp only [] at h
    by_cases ht : t = ""
    · subst ht
      rw [if_pos rfl] at h
      cases hocr : env.ocrText with
      | ok t2 => rw [hocr] at h; simp at h
      | error e2 =>
        rw [hocr] at h
        have hm : compositeFailMsg e = msg := by simpa using h
        exact ⟨hm.symm, Or.inr rfl, ⟨e2, rfl⟩⟩
    · rw [if_neg ht] at h
      simp at h
  | none =>
    rw [htry] at h
    simp only [] at h
    cases hocr : env.ocrText with
    | ok t2 => rw [hocr] at h; simp at h
    | error e2 =>
      rw [hocr] at h
      have hm : compositeFailMsg e = msg := by simpa using h
      exact ⟨hm.symm, Or.inl rfl, ⟨e2, rfl⟩⟩

/-- When a candidate decrypts to non-empty text, the recovery tail returns
exactly that text. -/
theorem parsePdfRecovery_ok {env : PdfEnv} {customer : Customer}
    {e t : String} {u : Bool} {cands : List String}
    (hcands : generate_password_candidatesE customer = Except.ok cands)
    (htry : try_password_protected_pdf env.attempt cands = some t)
    (hne : t ≠ "") :
    parsePdfRecovery env customer e u = (Except.ok t, u, true) := by
  unfold parsePdfRecovery
  simp only [hcands, htry]
  rw [if_neg hne]

/-- C2: the pipeline's public operation is total — exactly one
`ExtractionResult` per (document, profile) — and the only failures crossing
its boundary are the content-type precheck and the terminal `Failed`
variant, whose composite reason records the direct-extraction failure after
credential recovery was exhausted and the last-resort OCR also failed; an
intermediate direct-extraction failure followed by a successful candidate is
recovered into a success. -/
theorem c2_single_result_composite_failure (env : PdfEnv) (customer : Customer) :
    (∃! r, parse_pdf env customer = r) ∧
    (∀ msg, parse_pdf env customer = Except.error msg →
      (env.contentTypeIsPdf = false ∧ msg = "File must be a PDF") ∨
      (∃ e, msg = compositeFailMsg e ∧
        (env.extractText = Except.error e ∨
          ∃ t, env.extractText = Except.ok t ∧ (pyStrip t.data).isEmpty = true ∧
            env.ocrText = Except.error e) ∧
        (try_password_protected_pdf env.attempt (generate_password_candidates customer) =
            none ∨
          try_password_protected_pdf env.attempt (generate_password_candidates customer) =
            some "") ∧
        ∃ e2, env.ocrText = Except.error e2)) ∧
    (∀ e t, env.contentTypeIsPdf = true →
      env.extractText = Except.error e →
      try_password_protected_pdf env.attempt (generate_password_candidates customer) =
        some t →
      t ≠ "" →
      parse_pdf env customer = Except.ok t) := by
  obtain ⟨cands, hcands⟩ := generate_password_candidatesE_ok customer
  have hwrap : generate_password_candidates customer = cands := by
    unfold generate_password_candidates
    rw [hcands]
  refine ⟨⟨parse_pdf env customer, rfl, fun y hy => hy.symm⟩, ?_, ?_⟩
  · intro msg hmsg
    unfold parse_pdf parse_pdfT at hmsg
    by_cases hpdf : env.contentTypeIsPdf = false
    · rw [if_pos hpdf] at hmsg
      simp only [Except.error.injEq] at hmsg
      exact Or.inl ⟨hpdf, hmsg.symm⟩
    · rw [if_neg hpdf] at hmsg
      cases hext : env.extractText with
      | ok t =>
        rw [hext] at hmsg
        simp only [] at hmsg
        by_cases hstrip : (pyStrip t.data).isEmpty = true
        · rw [if_pos hstrip] at hmsg
          cases hocr : env.ocrText with
          | ok t2 => rw [hocr] at hmsg; simp at hmsg
          | error e2 =>
            rw [hocr] at hmsg
            simp only [] at hmsg
            obtain ⟨h1, h2, h3⟩ := parsePdfRecovery_error hcands hmsg
            rw [hwrap]
            exact Or.inr ⟨e2, h1, Or.inr ⟨t, rfl, hstrip, rfl⟩, h2, ⟨e2, rfl⟩⟩
        · rw [if_neg hstrip] at hmsg
          simp at hmsg
      | error e =>
        rw [hext] at hmsg
        simp only [] at hmsg
        obtain ⟨h1, h2, h3⟩ := parsePdfRecovery_error hcands hmsg
        rw [hwrap]
        refine Or.inr ⟨e, h1, Or.inl rfl, h2, ?_⟩
        obtain ⟨e2, he2⟩ := h3
        exact ⟨e2, he2⟩
  · intro e t hpdf hext htry hne
    unfold parse_pdf parse_pdfT
    rw [hwrap] at htry
    rw [if_neg (by rw [hpdf]; simp), hext]
    simp only []
    rw [parsePdfRecovery_ok hcands htry hne]

/-- C2 witness: a failing direct extraction recovered by the first password
candidate (profile name `jo`, candidate list `["jo", "Jo", "JO"]`). -/
theorem c2_witness :
    parse_pdf
      (PdfEnv.mk true (Except.error "boom") (Except.error "nope")
        (fun p => if p = "jo" then CandOutcome.ok "T" else CandOutcome.pwError))
      (Customer.mk "Jo" "" "" []) = Except.ok "T" := by
  have h := (c2_single_result_composite_failure
    (PdfEnv.mk true (Except.error "boom") (Except.error "nope")
      (fun p => if p = "jo" then CandOutcome.ok "T" else CandOutcome.pwError))
    (Customer.mk "Jo" "" "" [])).2.2 "boom" "T" rfl rfl (by rfl) (by decide)
  exact h

/-- C7: a document whose direct text extraction yields non-empty text after
whitespace normalization short-circuits the pipeline: that text is returned
and neither OCR nor credential recovery is ever invoked (both
instrumentation flags stay false). -/
theorem c7_direct_text_short_circuits (env : PdfEnv) (customer : Customer)
    (t : String) (hpdf : env.contentTypeIsPdf = true)
    (hok : env.extractText = Except.ok t)
    (hne : (pyStrip t.data).isEmpty = false) :
    parse_pdfT env customer = (Except.ok t, false, false) := by
  unfold parse_pdfT
  rw [if_neg (by rw [hpdf]; simp), hok]
  simp only []
  rw [if_neg (by rw [hne]; simp)]

/-- C7 witness: a plain-text document returns its text with the OCR and
credential-recovery flags still false. -/
theorem c7_witness :
    parse_pdfT
      (PdfEnv.mk true (Except.ok "hi") (Except.error "x") (fun _ => CandOutcome.pwError))
      (Customer.mk "" "" "" []) = (Except.ok "hi", false, false) :=
  c7_direct_text_short_circuits _ _ "hi" rfl rfl (by decide)

theorem interestLoop_succ_pos {p r rem acc : ℚ} (h : 0 < rem) (f : Nat) :
    interestLoop p r (f + 1) rem acc =
      interestLoop p r f (rem - (p - rem * r)) (acc + rem * r) := by
  cases f with
  | zero => unfold interestLoop; rw [if_pos h]; rfl
  | succ n => unfold interestLoop; rw [if_pos h]; rfl

theorem interestLoop_succ_nonpos {p r rem acc : ℚ} (h : ¬ 0 < rem) (f : Nat) :
    interestLoop p r (f + 1) rem acc = some acc := by
  unfold interestLoop
  rw [if_neg h]

theorem payoffLoop_step_true {p r rem : ℚ} {months : Nat}
    (h : 0 < rem ∧ months < 600) (f : Nat) :
    payoffLoop p r (f + 1) rem months =
      payoffLoop p r f (rem - (p - rem * r)) (months + 1) := by
  cases f with
  | zero => unfold payoffLoop; rw [if_pos h]; rfl
  | succ n => unfold payoffLoop; rw [if_pos h]; rfl

theorem payoffLoop_step_false {p r rem : ℚ} {months : Nat}
    (h : ¬(0 < rem ∧ months < 600)) (f : Nat) :
    payoffLoop p r (f + 1) rem months = months := by
  unfold payoffLoop
  rw [if_neg h]

/-- C5 witness: a card with no minimum payment but balance 50 (at apr 12,
i.e. monthly rate 1) gets an optimization plan with no minimum-payment
scenario and `interest_saved` fixed at 0. -/
theorem c5_witness :
    ∃ o, suggest_payment_optimization 2 (CreditCard.mk none none (some 50) (some 12) "AED") =
      some (OptSuggestion.plan none o) ∧ o.interest_saved = FloatVal.val 0 := by
  have hloop : interestLoop 100 ((12 : ℚ) / 12) 2 50 0 = some 50 := by
    rw [show (2 : Nat) = 1 + 1 from rfl, interestLoop_succ_pos (by norm_num) 1,
      show (50 : ℚ) - (100 - 50 * (12 / 12)) = 0 by norm_num,
      show (0 : ℚ) + 50 * (12 / 12) = 50 by norm_num,
      interestLoop_succ_nonpos (by norm_num) 0]
  have hti : calculate_total_interest 2 50 100 ((12 : ℚ) / 12) =
      some (FloatVal.val 50) := by
    unfold calculate_total_interest
    rw [if_neg (by norm_num), hloop]
    rfl
  have hpt : calculate_payoff_time 50 100 ((12 : ℚ) / 12) = 1 := by
    unfold calculate_payoff_time
    rw [if_neg (by norm_num),
      show (601 : Nat) = 600 + 1 from rfl,
      payoffLoop_step_true (by norm_num) 600,
      show (50 : ℚ) - (100 - 50 * (12 / 12)) = 0 by norm_num,
      show (600 : Nat) = 599 + 1 from rfl,
      payoffLoop_step_false (by norm_num) 599]
  have hmax : max ((0 : ℚ) * 2) 100 = 100 := by norm_num
  have hsug : suggest_payment_optimization 2
      (CreditCard.mk none none (some 50) (some 12) "AED") =
      some (OptSuggestion.plan none (OptimizedScenario.mk 100 1 (FloatVal.val 50)
        (addFin 50 (FloatVal.val 50)) (FloatVal.val 0))) := by
    unfold suggest_payment_optimization
    simp only [Option.getD, if_neg (show ¬((50 : ℚ) ≤ 0) by norm_num),
      if_neg (show ¬((12 : ℚ) = 0) by norm_num),
      if_neg (show ¬((0 : ℚ) < 0) by norm_num), hmax, hti, hpt]
    rfl
  have h := c5_no_minimum_no_interest_saved 2
    (CreditCard.mk none none (some 50) (some 12) "AED") (Or.inl rfl)
  rcases h with h | h | h
  · rw [hsug] at h
    simp at h
  · rw [hsug] at h
    simp at h
  · exact h
